import Mathlib

/-!
Shallow embedding of the cell-data attachment and transfer protocol of
`parallel::distributed::Triangulation` (deal.II, `include/deal.II/distributed/tria.h`).

The repository excerpt contains only the class declarations and their extensive
documentation; the member-function bodies (in `source/distributed/tria.cc`) are
not part of the excerpt.  Definitions below therefore embed the data structures
declared in the header (`CellStatus`, `CellAttachedData`, the
`quadrant_cell_relation_t` tuples, the `DataTransfer` buffers) and model the
missing function bodies from the header's documented contracts and from the
specification; such definitions carry a doc comment saying so.

Bytes are modelled as natural numbers, cell iterators and p4est quadrants as
natural-number identifiers.
-/

namespace DealII

/-- Embeds the `CellStatus` enumeration described in the documentation of
`register_data_attach` (tria.h): a cell either persists, is about to be
refined, is a non-first pending child slot of a refinement (`CELL_INVALID`),
or is the parent into which its children are about to be coarsened. -/
inductive CellStatus where
  | CELL_PERSIST
  | CELL_REFINE
  | CELL_COARSEN
  | CELL_INVALID
deriving DecidableEq

open CellStatus

/-- Decides whether a status is the `CELL_INVALID` placeholder tag. -/
def isInvalid : CellStatus → Bool
  | CELL_INVALID => true
  | _ => false

/-- Embeds `CellAttachedData::pack_callback_t`: a pack callback receives a cell
iterator and a `CellStatus` and returns a byte sequence
(`std::vector<char>`). -/
abbrev PackCallback := Nat → CellStatus → List Nat

/-- Embeds `quadrant_cell_relation_t`: a tuple of a p4est quadrant, the current
`CellStatus`, and the deal.II cell the quadrant relates to. -/
structure QuadCellRel where
  quadrant : Nat
  status : CellStatus
  cell : Nat
deriving DecidableEq

/-- Embeds the `CellAttachedData` structure of tria.h: the count of attached
data sets, the count of data sets still to be deserialized after `load()`, and
the registered pack callbacks, kept in two separate vectors according to
whether they return variable size data. -/
structure CellAttachedData where
  n_attached_data_sets : Nat
  n_attached_deserialize : Nat
  pack_callbacks_fixed : List PackCallback
  pack_callbacks_variable : List PackCallback

/-- Gives the state of `cell_attached_data` before any registration. -/
def emptyAttachedData : CellAttachedData :=
  { n_attached_data_sets := 0
    n_attached_deserialize := 0
    pack_callbacks_fixed := []
    pack_callbacks_variable := [] }

/-- Modelled from the spec: the body of
`Triangulation::register_data_attach` is not in the excerpt.  Per the header's
documentation and `CellAttachedData`'s declaration, the callback is appended to
`pack_callbacks_fixed` or `pack_callbacks_variable` according to
`returns_variable_size_data`, the data-set counter is increased, and a handle
encoding the registration's position within the serialized layout of its own
category is returned (even handles denote fixed-size registrations, odd handles
variable-size ones). -/
def register_data_attach (cad : CellAttachedData) (pack_callback : PackCallback)
    (returns_variable_size_data : Bool) : Nat × CellAttachedData :=
  if returns_variable_size_data then
    (2 * cad.pack_callbacks_variable.length + 1,
     { cad with
        pack_callbacks_variable := cad.pack_callbacks_variable ++ [pack_callback]
        n_attached_data_sets := cad.n_attached_data_sets + 1 })
  else
    (2 * cad.pack_callbacks_fixed.length,
     { cad with
        pack_callbacks_fixed := cad.pack_callbacks_fixed ++ [pack_callback]
        n_attached_data_sets := cad.n_attached_data_sets + 1 })

/-- Runs a sequence of `register_data_attach` calls, collecting the returned
handles in call order. -/
def register_all : List (PackCallback × Bool) → CellAttachedData → List Nat × CellAttachedData
  | [], cad => ([], cad)
  | (cb, flag) :: rest, cad =>
    let hc := register_data_attach cad cb flag
    let hrest := register_all rest hc.2
    (hc.1 :: hrest.1, hrest.2)

/-- Records one callback invocation as observed by application code: the cell
iterator passed, the `CellStatus` passed, and the byte range delivered. -/
structure Invocation where
  cell : Nat
  status : CellStatus
  bytes : List Nat
deriving DecidableEq

/-- Modelled from the spec: the body of `DataTransfer::pack_data` is not in the
excerpt.  Per the spec's PackEngine contract, a single registered callback is
invoked once per quadrant-cell relation whose status is not `CELL_INVALID`
(`CELL_INVALID` slots are skipped entirely), receiving the related cell and its
status; this list records those invocations in traversal order. -/
def pack_invocations (rels : List QuadCellRel) : List (Nat × CellStatus) :=
  (rels.filter (fun r => !isInvalid r.status)).map (fun r => (r.cell, r.status))

/-- Gives the bytes one relation contributes to the fixed-size buffer: nothing
for a `CELL_INVALID` slot, otherwise the concatenation of all fixed-size
callbacks' outputs in registration order. -/
def cellChunkFixed (cbs : List PackCallback) (r : QuadCellRel) : List Nat :=
  if isInvalid r.status then [] else (cbs.map (fun cb => cb r.cell r.status)).flatten

/-- Modelled from the spec: fixed-size part of `DataTransfer::pack_data`.  The
fixed-size buffer (`src_data_fixed`) is the concatenation, in the traversal
order of `quad_cell_relations`, of each relation's fixed record. -/
def pack_data_fixed (cbs : List PackCallback) (rels : List QuadCellRel) : List Nat :=
  (rels.map (cellChunkFixed cbs)).flatten

/-- Gives the per-callback byte counts one relation contributes to the
variable-size size table (empty for a `CELL_INVALID` slot). -/
def cellSizesVariable (cbs : List PackCallback) (r : QuadCellRel) : List Nat :=
  if isInvalid r.status then [] else cbs.map (fun cb => (cb r.cell r.status).length)

/-- Modelled from the spec: the per-element size table through which the
variable-size buffer is addressed (`src_sizes_variable`), with one entry per
relation in traversal order. -/
def pack_sizes_variable (cbs : List PackCallback) (rels : List QuadCellRel) : List (List Nat) :=
  rels.map (cellSizesVariable cbs)

/-- Gives the bytes one relation contributes to the variable-size buffer. -/
def cellChunkVariable (cbs : List PackCallback) (r : QuadCellRel) : List Nat :=
  if isInvalid r.status then [] else (cbs.map (fun cb => cb r.cell r.status)).flatten

/-- Modelled from the spec: variable-size part of `DataTransfer::pack_data`
(`src_data_variable`), the concatenation of the variable records in traversal
order. -/
def pack_data_variable (cbs : List PackCallback) (rels : List QuadCellRel) : List Nat :=
  (rels.map (cellChunkVariable cbs)).flatten

/-- Modelled from the spec: the cumulative fixed sizes
(`sizes_fixed_cumulative`) are discovered at pack time from the output of each
fixed-size callback on a cell; every fixed-size callback must return the same
length on every cell.  This definition records the discovered per-callback
sizes, probing the first relation that is not `CELL_INVALID`. -/
def discovered_fixed_sizes (cbs : List PackCallback) (rels : List QuadCellRel) : List Nat :=
  match rels.find? (fun r => !isInvalid r.status) with
  | none => cbs.map (fun _ => 0)
  | some r => cbs.map (fun cb => (cb r.cell r.status).length)

/-- Modelled from the spec: the body of `DataTransfer::unpack_data` for a
fixed-size handle.  The relations are traversed in the same order as at pack
time; `CELL_INVALID` slots are skipped without consuming buffer bytes; for
every other relation the callback indexed by the handle is handed the byte
range at its cumulative offset inside the relation's fixed record, and the
buffer cursor advances by the full record stride. -/
def unpack_data_fixed (sizes : List Nat) (j : Nat) :
    List QuadCellRel → List Nat → List Invocation
  | [], _ => []
  | r :: rs, buffer =>
    if isInvalid r.status then unpack_data_fixed sizes j rs buffer
    else
      { cell := r.cell
        status := r.status
        bytes := (buffer.drop ((sizes.take j).sum)).take (sizes.getD j 0) } ::
      unpack_data_fixed sizes j rs (buffer.drop sizes.sum)

/-- Modelled from the spec: the body of `DataTransfer::unpack_data` for a
variable-size handle.  The relations and the transferred per-element size table
are traversed in lockstep; each non-`CELL_INVALID` relation delivers the byte
range of the callback indexed by the handle, located through that element's
size-table entry, and the cursor advances by the element's total variable
payload. -/
def unpack_data_variable (j : Nat) :
    List QuadCellRel → List (List Nat) → List Nat → List Invocation
  | [], _, _ => []
  | _ :: _, [], _ => []
  | r :: rs, szs :: szss, buffer =>
    if isInvalid r.status then unpack_data_variable j rs szss (buffer.drop szs.sum)
    else
      { cell := r.cell
        status := r.status
        bytes := (buffer.drop ((szs.take j).sum)).take (szs.getD j 0) } ::
      unpack_data_variable j rs szss (buffer.drop szs.sum)

/-- Modelled from the spec: one full pack-transfer-unpack cycle for a given
handle, with the transfer step delivering the packed buffers unchanged (the
repartitioning exchange moves bytes between processes without altering them).
Even handles dispatch into the fixed-size buffer at callback index
`handle / 2`, odd handles into the variable-size buffer, matching the handle
encoding of `register_data_attach`. -/
def full_cycle_unpack (cad : CellAttachedData) (rels : List QuadCellRel)
    (handle : Nat) : List Invocation :=
  if handle % 2 = 1 then
    unpack_data_variable (handle / 2) rels
      (pack_sizes_variable cad.pack_callbacks_variable rels)
      (pack_data_variable cad.pack_callbacks_variable rels)
  else
    unpack_data_fixed (discovered_fixed_sizes cad.pack_callbacks_fixed rels) (handle / 2)
      rels (pack_data_fixed cad.pack_callbacks_fixed rels)

/-- Locates one chunk inside a flattened buffer: dropping the summed lengths of
the first `j` chunks and taking the `j`-th length recovers the `j`-th chunk,
even when arbitrary bytes follow the buffer. -/
theorem flatten_extract (L : List (List Nat)) (j : Nat) (rest : List Nat)
    (hj : j < L.length) :
    ((L.flatten ++ rest).drop (((L.map List.length).take j).sum)).take
        ((L.map List.length).getD j 0) = L.getD j [] := by
  induction L generalizing j rest with
  | nil => simp at hj
  | cons hd tl ih =>
    cases j with
    | zero =>
      simp only [List.map_cons, List.take_zero, List.sum_nil, List.drop_zero,
        List.getD_cons_zero, List.flatten_cons, List.append_assoc]
      exact List.take_left hd _
    | succ j' =>
      simp only [List.map_cons, List.take_succ_cons, List.sum_cons,
        List.getD_cons_succ, List.flatten_cons, List.append_assoc,
        List.drop_append, List.getD_cons_succ]
      exact ih j' rest (by simpa using hj)

/-- Shows that a flattened buffer whose chunk lengths are given by `sizes` is
consumed chunk by chunk: dropping `sizes.sum` bytes from one chunk followed by
anything leaves exactly that remainder. -/
theorem drop_chunk (chunk rest : List Nat) (sizes : List Nat)
    (h : sizes.sum = chunk.length) :
    (chunk ++ rest).drop sizes.sum = rest := by
  rw [h]
  exact List.drop_left chunk rest

/-- Round-trip correctness of the fixed-size path: unpacking a handle's
callback index from a buffer that starts with the packed fixed data (followed
by arbitrary trailing bytes) delivers, for every relation that is not
`CELL_INVALID` and in traversal order, exactly the bytes that callback produced
on that cell at pack time.  The hypothesis states the fixed-size contract: on
every cell the fixed callbacks' output lengths agree with `sizes`. -/
theorem unpack_data_fixed_pack (cbs : List PackCallback) (sizes : List Nat)
    (j : Nat) (rels : List QuadCellRel) (rest : List Nat)
    (hj : j < cbs.length)
    (hsz : ∀ r ∈ rels, isInvalid r.status = false →
        sizes = cbs.map (fun cb => (cb r.cell r.status).length)) :
    unpack_data_fixed sizes j rels (pack_data_fixed cbs rels ++ rest) =
      (rels.filter (fun r => !isInvalid r.status)).map
        (fun r =>
          { cell := r.cell
            status := r.status
            bytes := (cbs.map (fun cb => cb r.cell r.status)).getD j [] }) := by
  induction rels generalizing rest with
  | nil => simp [unpack_data_fixed, pack_data_fixed]
  | cons r rs ih =>
    by_cases hInv : isInvalid r.status
    · have hchunk : cellChunkFixed cbs r = [] := by simp [cellChunkFixed, hInv]
      simp only [pack_data_fixed, List.map_cons, List.flatten_cons, hchunk,
        List.nil_append, unpack_data_fixed, hInv, if_true, List.filter_cons,
        Bool.not_true, cond_false]
      exact ih rest (fun x hx h => hsz x (List.mem_cons_of_mem _ hx) h)
    · have hInv' : isInvalid r.status = false := by simpa using hInv
      have hs := hsz r (List.mem_cons_self _ _) hInv'
      have hsL : sizes = (cbs.map (fun cb => cb r.cell r.status)).map List.length := by
        rw [hs]; simp [List.map_map]
      have hchunk : cellChunkFixed cbs r =
          (cbs.map (fun cb => cb r.cell r.status)).flatten := by
        simp [cellChunkFixed, hInv']
      have hsum : sizes.sum = (cellChunkFixed cbs r).length := by
        rw [hsL, hchunk]; exact (List.length_flatten _).symm
      have h1 : pack_data_fixed cbs (r :: rs) ++ rest
          = cellChunkFixed cbs r ++ (pack_data_fixed cbs rs ++ rest) := by
        simp [pack_data_fixed]
      have hbytes : ((pack_data_fixed cbs (r :: rs) ++ rest).drop
            ((sizes.take j).sum)).take (sizes.getD j 0)
          = (cbs.map (fun cb => cb r.cell r.status)).getD j [] := by
        rw [h1, hchunk, hsL]
        exact flatten_extract _ j _ (by simpa using hj)
      have hdrop : (pack_data_fixed cbs (r :: rs) ++ rest).drop sizes.sum
          = pack_data_fixed cbs rs ++ rest := by
        rw [h1]; exact drop_chunk _ _ sizes hsum
      have hrec := ih rest (fun x hx h => hsz x (List.mem_cons_of_mem _ hx) h)
      show (if isInvalid r.status then _ else _) = _
      rw [if_neg hInv, hbytes, hdrop, hrec,
        List.filter_cons_of_pos (by simp [hInv']), List.map_cons]

/-- Round-trip correctness of the variable-size path: unpacking a handle's
callback index from a buffer that starts with the packed variable data, guided
by the transferred per-element size table, delivers for every
non-`CELL_INVALID` relation exactly the bytes that callback produced on that
cell at pack time.  No constant-size hypothesis is needed: the size table
carries each element's chunk lengths. -/
theorem unpack_data_variable_pack (cbs : List PackCallback) (j : Nat)
    (rels : List QuadCellRel) (rest : List Nat) (hj : j < cbs.length) :
    unpack_data_variable j rels (pack_sizes_variable cbs rels)
        (pack_data_variable cbs rels ++ rest) =
      (rels.filter (fun r => !isInvalid r.status)).map
        (fun r =>
          { cell := r.cell
            status := r.status
            bytes := (cbs.map (fun cb => cb r.cell r.status)).getD j [] }) := by
  induction rels generalizing rest with
  | nil => simp [unpack_data_variable, pack_sizes_variable, pack_data_variable]
  | cons r rs ih =>
    by_cases hInv : isInvalid r.status
    · have hszr : cellSizesVariable cbs r = [] := by simp [cellSizesVariable, hInv]
      have hchunk : cellChunkVariable cbs r = [] := by simp [cellChunkVariable, hInv]
      have h0 : pack_data_variable cbs (r :: rs) = pack_data_variable cbs rs := by
        simp [pack_data_variable, hchunk]
      show (if isInvalid r.status then _ else _) = _
      rw [if_pos hInv]
      have hfil : (r :: rs).filter (fun x => !isInvalid x.status) =
          rs.filter (fun x => !isInvalid x.status) := by
        simp [List.filter_cons, hInv]
      rw [hfil]
      have := ih rest
      simpa [h0, hszr] using this
    · have hInv' : isInvalid r.status = false := by simpa using hInv
      have hszr : cellSizesVariable cbs r =
          (cbs.map (fun cb => cb r.cell r.status)).map List.length := by
        simp [cellSizesVariable, hInv', List.map_map]
      have hchunk : cellChunkVariable cbs r =
          (cbs.map (fun cb => cb r.cell r.status)).flatten := by
        simp [cellChunkVariable, hInv']
      have hsum : (cellSizesVariable cbs r).sum = (cellChunkVariable cbs r).length := by
        rw [hszr, hchunk]; exact (List.length_flatten _).symm
      have h1 : pack_data_variable cbs (r :: rs) ++ rest
          = cellChunkVariable cbs r ++ (pack_data_variable cbs rs ++ rest) := by
        simp [pack_data_variable]
      have hbytes : ((pack_data_variable cbs (r :: rs) ++ rest).drop
            (((cellSizesVariable cbs r).take j).sum)).take
            ((cellSizesVariable cbs r).getD j 0)
          = (cbs.map (fun cb => cb r.cell r.status)).getD j [] := by
        rw [h1, hchunk, hszr]
        exact flatten_extract _ j _ (by simpa using hj)
      have hdrop : (pack_data_variable cbs (r :: rs) ++ rest).drop
            ((cellSizesVariable cbs r).sum)
          = pack_data_variable cbs rs ++ rest := by
        rw [h1]; exact drop_chunk _ _ _ hsum
      have hrec := ih rest
      show (if isInvalid r.status then _ else _) = _
      rw [if_neg hInv, hbytes, hdrop,
        show List.map (cellSizesVariable cbs) rs = pack_sizes_variable cbs rs from rfl,
        hrec, List.filter_cons_of_pos (by simp [hInv']), List.map_cons]

/-- Shows that the unpack traversal reproduces the pack traversal: the cells
and statuses handed to the unpack callback, in order, are exactly the cells and
statuses handed to each pack callback, whatever the buffer contents. -/
theorem unpack_data_fixed_trace (sizes : List Nat) (j : Nat)
    (rels : List QuadCellRel) (buf : List Nat) :
    (unpack_data_fixed sizes j rels buf).map (fun i => (i.cell, i.status)) =
      pack_invocations rels := by
  induction rels generalizing buf with
  | nil => simp [unpack_data_fixed, pack_invocations]
  | cons r rs ih =>
    by_cases hInv : isInvalid r.status
    · show ((if isInvalid r.status then _ else _ : List Invocation)).map _ = _
      rw [if_pos hInv, ih buf]
      unfold pack_invocations
      rw [List.filter_cons_of_neg (by simp [hInv])]
    · show ((if isInvalid r.status then _ else _ : List Invocation)).map _ = _
      have hInv' : isInvalid r.status = false := by simpa using hInv
      rw [if_neg hInv, List.map_cons, ih]
      unfold pack_invocations
      rw [List.filter_cons_of_pos (by simp [hInv']), List.map_cons]

/-- Shows the same traversal identity for the variable-size path, with the
size table produced at pack time. -/
theorem unpack_data_variable_trace (cbs : List PackCallback) (j : Nat)
    (rels : List QuadCellRel) (buf : List Nat) :
    (unpack_data_variable j rels (pack_sizes_variable cbs rels) buf).map
        (fun i => (i.cell, i.status)) = pack_invocations rels := by
  induction rels generalizing buf with
  | nil => simp [unpack_data_variable, pack_invocations, pack_sizes_variable]
  | cons r rs ih =>
    by_cases hInv : isInvalid r.status
    · show ((if isInvalid r.status then _ else _ : List Invocation)).map _ = _
      rw [if_pos hInv,
        show List.map (cellSizesVariable cbs) rs = pack_sizes_variable cbs rs from rfl, ih]
      unfold pack_invocations
      rw [List.filter_cons_of_neg (by simp [hInv])]
    · show ((if isInvalid r.status then _ else _ : List Invocation)).map _ = _
      have hInv' : isInvalid r.status = false := by simpa using hInv
      rw [if_neg hInv, List.map_cons,
        show List.map (cellSizesVariable cbs) rs = pack_sizes_variable cbs rs from rfl, ih]
      unfold pack_invocations
      rw [List.filter_cons_of_pos (by simp [hInv']), List.map_cons]

/-- States the fixed-size contract for a callback register: on every cell of
the traversal, the lengths of the fixed callbacks' outputs agree with the sizes
discovered at pack time (i.e. every fixed callback returns a constant length
across the triangulation, as `register_data_attach` requires for
`returns_variable_size_data = false`). -/
def FixedSizesOk (cbs : List PackCallback) (rels : List QuadCellRel) : Prop :=
  ∀ r ∈ rels, isInvalid r.status = false →
    discovered_fixed_sizes cbs rels = cbs.map (fun cb => (cb r.cell r.status).length)

instance (cbs : List PackCallback) (rels : List QuadCellRel) :
    Decidable (FixedSizesOk cbs rels) := by
  unfold FixedSizesOk
  infer_instance

/-- Dispatch-level correctness for an even (fixed-size) handle: the full cycle
with handle `2 * j` delivers, per non-`CELL_INVALID` relation, the bytes packed
by the `j`-th fixed-size callback. -/
theorem full_cycle_unpack_fixed (cad : CellAttachedData) (rels : List QuadCellRel)
    (j : Nat) (hj : j < cad.pack_callbacks_fixed.length)
    (hsz : FixedSizesOk cad.pack_callbacks_fixed rels) :
    full_cycle_unpack cad rels (2 * j) =
      (rels.filter (fun r => !isInvalid r.status)).map
        (fun r =>
          { cell := r.cell
            status := r.status
            bytes := (cad.pack_callbacks_fixed.map
              (fun cb => cb r.cell r.status)).getD j [] }) := by
  have hmod : (2 * j) % 2 = 0 := Nat.mul_mod_right 2 j
  have hdiv : (2 * j) / 2 = j := Nat.mul_div_cancel_left j (by norm_num)
  unfold full_cycle_unpack
  rw [if_neg (by rw [hmod]; norm_num), hdiv,
    show pack_data_fixed cad.pack_callbacks_fixed rels
      = pack_data_fixed cad.pack_callbacks_fixed rels ++ [] from (List.append_nil _).symm]
  exact unpack_data_fixed_pack _ _ j rels [] hj (fun r hr h => hsz r hr h)

/-- Dispatch-level correctness for an odd (variable-size) handle: the full
cycle with handle `2 * j + 1` delivers, per non-`CELL_INVALID` relation, the
bytes packed by the `j`-th variable-size callback. -/
theorem full_cycle_unpack_variable (cad : CellAttachedData) (rels : List QuadCellRel)
    (j : Nat) (hj : j < cad.pack_callbacks_variable.length) :
    full_cycle_unpack cad rels (2 * j + 1) =
      (rels.filter (fun r => !isInvalid r.status)).map
        (fun r =>
          { cell := r.cell
            status := r.status
            bytes := (cad.pack_callbacks_variable.map
              (fun cb => cb r.cell r.status)).getD j [] }) := by
  have hmod : (2 * j + 1) % 2 = 1 := by omega
  have hdiv : (2 * j + 1) / 2 = j := by omega
  unfold full_cycle_unpack
  rw [if_pos hmod, hdiv,
    show pack_data_variable cad.pack_callbacks_variable rels
      = pack_data_variable cad.pack_callbacks_variable rels ++ [] from (List.append_nil _).symm]
  exact unpack_data_variable_pack _ j rels [] hj

/-- Embeds the part of the p4est `parallel_forest` this protocol consumes: the
sequence of locally owned quadrants in the order of the forest's local
`sc_array`. -/
structure Forest where
  local_quadrants : List Nat

/-- Modelled from the spec: the body of `update_quadrant_cell_relations` is not
in the excerpt.  Per its documentation, the stored vector has one entry per
locally owned quadrant of the `parallel_forest`, ordered by the occurrence of
quadrants in the corresponding local sc_array, relating each quadrant to its
deal.II cell; outside of a refinement step every relation carries
`CELL_PERSIST`. -/
def update_quadrant_cell_relations (f : Forest) (cell_of : Nat → Nat) :
    List QuadCellRel :=
  f.local_quadrants.map (fun q =>
    { quadrant := q, status := CellStatus.CELL_PERSIST, cell := cell_of q })

/-- Builds the quadrant-cell relations of the serialization path, where every
element persists and quadrants coincide with cell identifiers. -/
def persist_rels (cells : List Nat) : List QuadCellRel :=
  cells.map (fun c => { quadrant := c, status := CellStatus.CELL_PERSIST, cell := c })

/-- Modelled from the spec: `DataTransfer::save` writes the packed fixed-size
buffer of every process into one shared file, each process at the offset of
its own locally owned range; the file contents over the global enumeration are
therefore the fixed-size pack of all elements with status `CELL_PERSIST`. -/
def save_data_fixed (cbs : List PackCallback) (cells : List Nat) : List Nat :=
  pack_data_fixed cbs (persist_rels cells)

/-- Modelled from the spec: on `load`, a process owning the `p`-th contiguous
range of the (possibly different) partition reads back only its own assigned
byte range, located by the cumulative element count of the preceding ranges
times the per-element stride. -/
def load_process_range (stride : Nat) (parts : List (List Nat)) (p : Nat)
    (file : List Nat) : List Nat :=
  (file.drop (stride * ((parts.take p).flatten.length))).take
    (stride * ((parts.getD p []).length))

/-- Modelled from the spec: the unpack step after `load` on one process, with
the `CellStatus` forced to `CELL_PERSIST` for all elements. -/
def load_unpack_process (sizes : List Nat) (j : Nat) (parts : List (List Nat))
    (p : Nat) (file : List Nat) : List Invocation :=
  unpack_data_fixed sizes j (persist_rels (parts.getD p []))
    (load_process_range sizes.sum parts p file)

/-- Collects the unpack invocations of all processes of a partition, in
process order. -/
def load_unpack_all (sizes : List Nat) (j : Nat) (parts : List (List Nat))
    (file : List Nat) : List Invocation :=
  ((List.range parts.length).map (fun p => load_unpack_process sizes j parts p file)).flatten

/-- Modelled from the spec: one attach/transfer cycle at the triangulation
level.  Each registered callback receives one pack request per
non-`CELL_INVALID` relation; afterwards the registry is cleared, per the
header's note that `notify_ready_to_unpack()`, `save()` and `load()` all
forget the registered callbacks once they have been called (re-registration is
needed for every subsequent cycle; a cycle with an empty registry simply
issues no pack requests rather than failing). -/
def run_cycle (cad : CellAttachedData) (rels : List QuadCellRel) :
    List (List (Nat × CellStatus)) × CellAttachedData :=
  ((cad.pack_callbacks_fixed ++ cad.pack_callbacks_variable).map
      (fun _ => pack_invocations rels),
   { n_attached_data_sets := 0
     n_attached_deserialize := 0
     pack_callbacks_fixed := []
     pack_callbacks_variable := [] })

/-- Embeds the on-disk state written by `save()`: the two data files together
with the registration counts recorded at save time, which `load()` checks the
declared `n_attached_deserialize_fixed/variable` against. -/
structure SerializedStore where
  n_fixed : Nat
  n_variable : Nat
  data_fixed : List Nat
  data_variable : List Nat
  sizes_variable : List (List Nat)
deriving DecidableEq

/-- Modelled from the spec: `save()` records the packed buffers and the number
of fixed-size and variable-size registrations present at save time. -/
def tria_save (cad : CellAttachedData) (rels : List QuadCellRel) : SerializedStore :=
  { n_fixed := cad.pack_callbacks_fixed.length
    n_variable := cad.pack_callbacks_variable.length
    data_fixed := pack_data_fixed cad.pack_callbacks_fixed rels
    data_variable := pack_data_variable cad.pack_callbacks_variable rels
    sizes_variable := pack_sizes_variable cad.pack_callbacks_variable rels }

/-- Modelled from the spec: the body of `DataTransfer::load` is not in the
excerpt.  The `n_attached_deserialize_fixed` and `n_attached_deserialize_variable`
parameters are required to gather the memory offsets for each callback; a
mismatch with the counts present at save time makes the offsets meaningless,
so it is reported as a fatal configuration error before any byte is
interpreted. -/
def dataTransfer_load (store : SerializedStore)
    (n_attached_deserialize_fixed n_attached_deserialize_variable : Nat) :
    Except String (List Nat × List Nat × List (List Nat)) :=
  if n_attached_deserialize_fixed == store.n_fixed
      && n_attached_deserialize_variable == store.n_variable then
    Except.ok (store.data_fixed, store.data_variable, store.sizes_variable)
  else
    Except.error "number of attached data sets does not match the save"

/-- Modelled from the spec: the classifier's tag for the `i`-th pending child
slot of a cell about to be refined — only the very first child slot carries
`CELL_REFINE`, all others carry `CELL_INVALID` (documentation of
`register_data_attach`). -/
def classify_refine_child_slot (i : Nat) : CellStatus :=
  if i = 0 then CellStatus.CELL_REFINE else CellStatus.CELL_INVALID

/-- Builds the quadrant-cell relations of one parent cell about to be refined
into `k` children: `k` pending child quadrants, all linked to the deal.II cell
which is going to be refined, tagged by `classify_refine_child_slot`. -/
def refine_family (k parent qstart : Nat) : List QuadCellRel :=
  (List.range k).map (fun i =>
    { quadrant := qstart + i, status := classify_refine_child_slot i, cell := parent })

/-- Embeds the refinement hierarchy visible through a cell iterator: which
cells currently have children (an active cell has none). -/
structure Mesh where
  children_map : List (Nat × List Nat)
deriving DecidableEq

/-- Gives the children a cell iterator can currently access (empty for an
active, not refined cell). -/
def Mesh.childrenOf (m : Mesh) (c : Nat) : List Nat :=
  (List.lookup c m.children_map).getD []

/-- Gives the identifiers of the `k` children created when cell `c` is
refined. -/
def child_ids (k c : Nat) : List Nat :=
  (List.range k).map (fun i => k * c + i + 1)

/-- Decides whether a relation changes the hierarchy during
`execute_coarsening_and_refinement` (refinement creates children, coarsening
removes them; persisting and placeholder slots change nothing). -/
def adaptTouches (r : QuadCellRel) : Bool :=
  r.status == CellStatus.CELL_REFINE || r.status == CellStatus.CELL_COARSEN

/-- Modelled from the spec: the effect of
`execute_coarsening_and_refinement()` on the hierarchy, between pack time and
unpack time.  A `CELL_REFINE` relation creates the `k` children of its cell
(they do not exist at pack time); a `CELL_COARSEN` relation deletes the
children of its cell (they exist at pack time, not at unpack time); `CELL_PERSIST`
and `CELL_INVALID` relations leave the hierarchy unchanged. -/
def adapt_mesh (k : Nat) : List QuadCellRel → Mesh → Mesh
  | [], m => m
  | r :: rs, m =>
    match r.status with
    | CellStatus.CELL_REFINE =>
        adapt_mesh k rs { children_map := (r.cell, child_ids k r.cell) :: m.children_map }
    | CellStatus.CELL_COARSEN =>
        adapt_mesh k rs { children_map := m.children_map.filter (fun pr => pr.1 != r.cell) }
    | _ => adapt_mesh k rs m

/-- States the classifier invariant that each cell family is the subject of at
most one hierarchy-changing relation in a cycle. -/
def RelsNodup (rels : List QuadCellRel) : Prop :=
  ((rels.filter adaptTouches).map (fun r => r.cell)).Nodup

instance (rels : List QuadCellRel) : Decidable (RelsNodup rels) := by
  unfold RelsNodup
  infer_instance

theorem lookup_cons_ne (c c' : Nat) (v : List Nat) (l : List (Nat × List Nat))
    (h : c ≠ c') : List.lookup c ((c', v) :: l) = List.lookup c l := by
  have hb : (c == c') = false := by simpa using h
  simp [List.lookup, hb]

theorem lookup_filter_ne (c c₀ : Nat) (l : List (Nat × List Nat)) (h : c ≠ c₀) :
    List.lookup c (l.filter (fun pr => pr.1 != c₀)) = List.lookup c l := by
  induction l with
  | nil => rfl
  | cons hd tl ih =>
    obtain ⟨kk, v⟩ := hd
    by_cases hk : kk = c₀
    · have hckn : c ≠ kk := by rw [hk]; exact h
      rw [List.filter_cons_of_neg (by simp [hk]), ih,
        lookup_cons_ne c kk v tl hckn]
    · rw [List.filter_cons_of_pos (by simp [hk])]
      by_cases hck : c = kk
      · have hb : (c == kk) = true := by simpa using hck
        simp [List.lookup, hb]
      · rw [lookup_cons_ne c kk v _ hck, lookup_cons_ne c kk v _ hck, ih]

theorem lookup_filter_self (c : Nat) (l : List (Nat × List Nat)) :
    List.lookup c (l.filter (fun pr => pr.1 != c)) = none := by
  induction l with
  | nil => rfl
  | cons hd tl ih =>
    obtain ⟨kk, v⟩ := hd
    by_cases hk : kk = c
    · rw [List.filter_cons_of_neg (by simp [hk])]; exact ih
    · rw [List.filter_cons_of_pos (by simp [hk]),
        lookup_cons_ne c kk v _ (fun hcc => hk hcc.symm), ih]

/-- Shows that adapting the mesh by relations none of which touch cell `c`
leaves the children of `c` unchanged. -/
theorem adapt_mesh_untouched (k : Nat) (rels : List QuadCellRel) (c : Nat)
    (h : ∀ r ∈ rels, adaptTouches r = true → r.cell ≠ c) :
    ∀ m : Mesh, (adapt_mesh k rels m).childrenOf c = m.childrenOf c := by
  induction rels with
  | nil => intro m; rfl
  | cons r rs ih =>
    intro m
    have hrs : ∀ x ∈ rs, adaptTouches x = true → x.cell ≠ c :=
      fun x hx => h x (List.mem_cons_of_mem _ hx)
    cases hst : r.status with
    | CELL_REFINE =>
      have hne : r.cell ≠ c := h r (List.mem_cons_self _ _) (by simp [adaptTouches, hst])
      rw [show adapt_mesh k (r :: rs) m
        = adapt_mesh k rs { children_map := (r.cell, child_ids k r.cell) :: m.children_map } by
          simp [adapt_mesh, hst]]
      rw [ih hrs]
      unfold Mesh.childrenOf
      rw [lookup_cons_ne c r.cell _ _ (fun hcc => hne hcc.symm)]
    | CELL_COARSEN =>
      have hne : r.cell ≠ c := h r (List.mem_cons_self _ _) (by simp [adaptTouches, hst])
      rw [show adapt_mesh k (r :: rs) m
        = adapt_mesh k rs { children_map := m.children_map.filter (fun pr => pr.1 != r.cell) } by
          simp [adapt_mesh, hst]]
      rw [ih hrs]
      unfold Mesh.childrenOf
      rw [lookup_filter_ne c r.cell _ (fun hcc => hne hcc.symm)]
    | CELL_PERSIST =>
      rw [show adapt_mesh k (r :: rs) m = adapt_mesh k rs m by simp [adapt_mesh, hst]]
      exact ih hrs m
    | CELL_INVALID =>
      rw [show adapt_mesh k (r :: rs) m = adapt_mesh k rs m by simp [adapt_mesh, hst]]
      exact ih hrs m

theorem child_ids_ne_nil (k c : Nat) (hk : 1 ≤ k) : child_ids k c ≠ [] := by
  simp [child_ids, List.range_eq_nil]
  omega

theorem relsNodup_tail (r₀ : QuadCellRel) (rs : List QuadCellRel)
    (h : RelsNodup (r₀ :: rs)) : RelsNodup rs := by
  unfold RelsNodup at h ⊢
  by_cases ht : adaptTouches r₀ = true
  · rw [List.filter_cons_of_pos ht, List.map_cons] at h
    exact (List.nodup_cons.mp h).2
  · rw [List.filter_cons_of_neg ht] at h
    exact h

theorem relsNodup_head_not_in (r₀ : QuadCellRel) (rs : List QuadCellRel)
    (h : RelsNodup (r₀ :: rs)) (ht : adaptTouches r₀ = true) :
    ∀ x ∈ rs, adaptTouches x = true → x.cell ≠ r₀.cell := by
  unfold RelsNodup at h
  rw [List.filter_cons_of_pos ht, List.map_cons] at h
  intro x hx hxt heq
  exact (List.nodup_cons.mp h).1
    (heq ▸ List.mem_map_of_mem _ (List.mem_filter.mpr ⟨hx, hxt⟩))

/-- Shows that after the adaptation step, the cell of a `CELL_REFINE` relation
has exactly its `k` newly created children (they did not exist before the
step), provided no other hierarchy-changing relation concerns the same
cell. -/
theorem adapt_mesh_refine (k : Nat) (r : QuadCellRel)
    (hst : r.status = CellStatus.CELL_REFINE) :
    ∀ rels, r ∈ rels → RelsNodup rels →
      ∀ m : Mesh, (adapt_mesh k rels m).childrenOf r.cell = child_ids k r.cell := by
  intro rels
  induction rels with
  | nil => intro hr; cases hr
  | cons r₀ rs ih =>
    intro hr hnd m
    rcases List.mem_cons.mp hr with heq | hmem
    · subst heq
      rw [show adapt_mesh k (r :: rs) m
        = adapt_mesh k rs { children_map := (r.cell, child_ids k r.cell) :: m.children_map } by
          simp [adapt_mesh, hst]]
      rw [adapt_mesh_untouched k rs r.cell
        (relsNodup_head_not_in r rs hnd (by simp [adaptTouches, hst])) _]
      unfold Mesh.childrenOf
      simp [List.lookup]
    · have hnd' : RelsNodup rs := relsNodup_tail r₀ rs hnd
      cases hst₀ : r₀.status with
      | CELL_REFINE =>
        rw [show adapt_mesh k (r₀ :: rs) m
          = adapt_mesh k rs
              { children_map := (r₀.cell, child_ids k r₀.cell) :: m.children_map } by
            simp [adapt_mesh, hst₀]]
        exact ih hmem hnd' _
      | CELL_COARSEN =>
        rw [show adapt_mesh k (r₀ :: rs) m
          = adapt_mesh k rs
              { children_map := m.children_map.filter (fun pr => pr.1 != r₀.cell) } by
            simp [adapt_mesh, hst₀]]
        exact ih hmem hnd' _
      | CELL_PERSIST =>
        rw [show adapt_mesh k (r₀ :: rs) m = adapt_mesh k rs m by simp [adapt_mesh, hst₀]]
        exact ih hmem hnd' m
      | CELL_INVALID =>
        rw [show adapt_mesh k (r₀ :: rs) m = adapt_mesh k rs m by simp [adapt_mesh, hst₀]]
        exact ih hmem hnd' m

/-- Shows that after the adaptation step, the cell of a `CELL_COARSEN`
relation no longer has any children (they existed before the step), provided
no other hierarchy-changing relation concerns the same cell. -/
theorem adapt_mesh_coarsen (k : Nat) (r : QuadCellRel)
    (hst : r.status = CellStatus.CELL_COARSEN) :
    ∀ rels, r ∈ rels → RelsNodup rels →
      ∀ m : Mesh, (adapt_mesh k rels m).childrenOf r.cell = [] := by
  intro rels
  induction rels with
  | nil => intro hr; cases hr
  | cons r₀ rs ih =>
    intro hr hnd m
    rcases List.mem_cons.mp hr with heq | hmem
    · subst heq
      rw [show adapt_mesh k (r :: rs) m
        = adapt_mesh k rs
            { children_map := m.children_map.filter (fun pr => pr.1 != r.cell) } by
          simp [adapt_mesh, hst]]
      rw [adapt_mesh_untouched k rs r.cell
        (relsNodup_head_not_in r rs hnd (by simp [adaptTouches, hst])) _]
      unfold Mesh.childrenOf
      rw [lookup_filter_self]
      rfl
    · have hnd' : RelsNodup rs := relsNodup_tail r₀ rs hnd
      cases hst₀ : r₀.status with
      | CELL_REFINE =>
        rw [show adapt_mesh k (r₀ :: rs) m
          = adapt_mesh k rs
              { children_map := (r₀.cell, child_ids k r₀.cell) :: m.children_map } by
            simp [adapt_mesh, hst₀]]
        exact ih hmem hnd' _
      | CELL_COARSEN =>
        rw [show adapt_mesh k (r₀ :: rs) m
          = adapt_mesh k rs
              { children_map := m.children_map.filter (fun pr => pr.1 != r₀.cell) } by
            simp [adapt_mesh, hst₀]]
        exact ih hmem hnd' _
      | CELL_PERSIST =>
        rw [show adapt_mesh k (r₀ :: rs) m = adapt_mesh k rs m by simp [adapt_mesh, hst₀]]
        exact ih hmem hnd' m
      | CELL_INVALID =>
        rw [show adapt_mesh k (r₀ :: rs) m = adapt_mesh k rs m by simp [adapt_mesh, hst₀]]
        exact ih hmem hnd' m

theorem register_all_fixed (regs : List (PackCallback × Bool)) :
    ∀ cad : CellAttachedData, (register_all regs cad).2.pack_callbacks_fixed
      = cad.pack_callbacks_fixed ++ (regs.filter (fun pr => !pr.2)).map (fun pr => pr.1) := by
  induction regs with
  | nil => intro cad; simp [register_all]
  | cons pr rest ih =>
    intro cad
    obtain ⟨cb, flag⟩ := pr
    cases flag with
    | false =>
      show (register_all rest (register_data_attach cad cb false).2).2.pack_callbacks_fixed = _
      rw [ih]
      simp [register_data_attach, List.filter_cons]
    | true =>
      show (register_all rest (register_data_attach cad cb true).2).2.pack_callbacks_fixed = _
      rw [ih]
      simp [register_data_attach, List.filter_cons]

theorem register_all_variable (regs : List (PackCallback × Bool)) :
    ∀ cad : CellAttachedData, (register_all regs cad).2.pack_callbacks_variable
      = cad.pack_callbacks_variable ++ (regs.filter (fun pr => pr.2)).map (fun pr => pr.1) := by
  induction regs with
  | nil => intro cad; simp [register_all]
  | cons pr rest ih =>
    intro cad
    obtain ⟨cb, flag⟩ := pr
    cases flag with
    | false =>
      show (register_all rest (register_data_attach cad cb false).2).2.pack_callbacks_variable = _
      rw [ih]
      simp [register_data_attach, List.filter_cons]
    | true =>
      show (register_all rest (register_data_attach cad cb true).2).2.pack_callbacks_variable = _
      rw [ih]
      simp [register_data_attach, List.filter_cons]

/-- Derives, from a traversal-trace identity, that every delivered invocation
takes its cell and status from some quadrant-cell relation. -/
theorem unpack_mem_of_trace {l : List Invocation} {rels : List QuadCellRel}
    (h : l.map (fun i => (i.cell, i.status)) = pack_invocations rels) :
    ∀ inv ∈ l, ∃ r ∈ rels, inv.cell = r.cell ∧ inv.status = r.status := by
  intro inv hinv
  have hm : (inv.cell, inv.status) ∈ pack_invocations rels := by
    rw [← h]; exact List.mem_map_of_mem _ hinv
  unfold pack_invocations at hm
  rcases List.mem_map.mp hm with ⟨r, hr, heq⟩
  exact ⟨r, (List.mem_filter.mp hr).1,
    (congrArg Prod.fst heq).symm, (congrArg Prod.snd heq).symm⟩

theorem save_data_fixed_append (cbs : List PackCallback) (a b : List Nat) :
    save_data_fixed cbs (a ++ b) = save_data_fixed cbs a ++ save_data_fixed cbs b := by
  simp [save_data_fixed, persist_rels, pack_data_fixed]

theorem save_data_fixed_length (cbs : List PackCallback) (sizes : List Nat)
    (cells : List Nat)
    (hsz : ∀ c ∈ cells, sizes = cbs.map (fun cb => (cb c CellStatus.CELL_PERSIST).length)) :
    (save_data_fixed cbs cells).length = sizes.sum * cells.length := by
  induction cells with
  | nil => simp [save_data_fixed, persist_rels, pack_data_fixed]
  | cons c cs ih =>
    have hc := hsz c (List.mem_cons_self _ _)
    have hchunk : (cellChunkFixed cbs
        { quadrant := c, status := CellStatus.CELL_PERSIST, cell := c }).length
        = sizes.sum := by
      rw [show cellChunkFixed cbs
            { quadrant := c, status := CellStatus.CELL_PERSIST, cell := c }
          = (cbs.map (fun cb => cb c CellStatus.CELL_PERSIST)).flatten by
            simp [cellChunkFixed, isInvalid]]
      rw [List.length_flatten, List.map_map, hc]
      rfl
    rw [show save_data_fixed cbs (c :: cs)
        = cellChunkFixed cbs { quadrant := c, status := CellStatus.CELL_PERSIST, cell := c }
          ++ save_data_fixed cbs cs by
        simp [save_data_fixed, persist_rels, pack_data_fixed]]
    rw [List.length_append, hchunk, ih (fun x hx => hsz x (List.mem_cons_of_mem _ hx)),
      List.length_cons]
    ring

/-- Shows that unpacking a whole all-`CELL_PERSIST` range against its own
packed buffer delivers every element's bytes for the selected callback. -/
theorem unpack_persist_exact (cbs : List PackCallback) (sizes : List Nat) (j : Nat)
    (hj : j < cbs.length) (cells : List Nat)
    (hsz : ∀ c ∈ cells, sizes = cbs.map (fun cb => (cb c CellStatus.CELL_PERSIST).length)) :
    unpack_data_fixed sizes j (persist_rels cells) (save_data_fixed cbs cells) =
      cells.map (fun c =>
        { cell := c
          status := CellStatus.CELL_PERSIST
          bytes := (cbs.map (fun cb => cb c CellStatus.CELL_PERSIST)).getD j [] }) := by
  have hsz' : ∀ r ∈ persist_rels cells, isInvalid r.status = false →
      sizes = cbs.map (fun cb => (cb r.cell r.status).length) := by
    intro r hr _
    rcases List.mem_map.mp hr with ⟨c, hc, rfl⟩
    exact hsz c hc
  rw [save_data_fixed,
    show pack_data_fixed cbs (persist_rels cells)
      = pack_data_fixed cbs (persist_rels cells) ++ [] from (List.append_nil _).symm,
    unpack_data_fixed_pack cbs sizes j (persist_rels cells) [] hj hsz']
  rw [List.filter_eq_self.mpr (fun r hr => by
    rcases List.mem_map.mp hr with ⟨c, hc, rfl⟩
    simp [isInvalid])]
  simp [persist_rels, List.map_map]

/-- Shows that after `save`, a `load` performed under an arbitrary partition of
the global element enumeration into contiguous per-process ranges recovers,
in enumeration order, every element's saved bytes for the selected callback,
with status `CELL_PERSIST`. -/
theorem load_recovers_saved (cbs : List PackCallback) (sizes : List Nat) (j : Nat)
    (hj : j < cbs.length) :
    ∀ parts : List (List Nat),
      (∀ c ∈ parts.flatten,
        sizes = cbs.map (fun cb => (cb c CellStatus.CELL_PERSIST).length)) →
      load_unpack_all sizes j parts (save_data_fixed cbs parts.flatten) =
        parts.flatten.map (fun c =>
          { cell := c
            status := CellStatus.CELL_PERSIST
            bytes := (cbs.map (fun cb => cb c CellStatus.CELL_PERSIST)).getD j [] }) := by
  intro parts
  induction parts with
  | nil => intro _; simp [load_unpack_all]
  | cons p₀ ps ih =>
    intro hsz
    have hsz₀ : ∀ c ∈ p₀,
        sizes = cbs.map (fun cb => (cb c CellStatus.CELL_PERSIST).length) :=
      fun c hc => hsz c (by simp [hc])
    have hszr : ∀ c ∈ ps.flatten,
        sizes = cbs.map (fun cb => (cb c CellStatus.CELL_PERSIST).length) :=
      fun c hc => hsz c (by simp [hc])
    have hfile : save_data_fixed cbs ((p₀ :: ps).flatten)
        = save_data_fixed cbs p₀ ++ save_data_fixed cbs ps.flatten := by
      rw [List.flatten_cons, save_data_fixed_append]
    have hlen₀ : (save_data_fixed cbs p₀).length = sizes.sum * p₀.length :=
      save_data_fixed_length cbs sizes p₀ hsz₀
    have hg0 : load_unpack_process sizes j (p₀ :: ps) 0
          (save_data_fixed cbs ((p₀ :: ps).flatten))
        = p₀.map (fun c =>
            { cell := c
              status := CellStatus.CELL_PERSIST
              bytes := (cbs.map (fun cb => cb c CellStatus.CELL_PERSIST)).getD j [] }) := by
      unfold load_unpack_process load_process_range
      rw [hfile]
      simp only [List.take_zero, List.flatten_nil, List.length_nil, Nat.mul_zero,
        List.drop_zero, List.getD_cons_zero]
      rw [show sizes.sum * p₀.length = (save_data_fixed cbs p₀).length from hlen₀.symm,
        List.take_left]
      exact unpack_persist_exact cbs sizes j hj p₀ hsz₀
    have hgs : ∀ p : Nat, load_unpack_process sizes j (p₀ :: ps) (p + 1)
          (save_data_fixed cbs ((p₀ :: ps).flatten))
        = load_unpack_process sizes j ps p (save_data_fixed cbs ps.flatten) := by
      intro p
      unfold load_unpack_process load_process_range
      rw [hfile, List.take_succ_cons, List.flatten_cons, List.length_append,
        Nat.mul_add,
        show sizes.sum * p₀.length = (save_data_fixed cbs p₀).length from hlen₀.symm,
        List.drop_append, List.getD_cons_succ]
    unfold load_unpack_all
    rw [List.length_cons, List.range_succ_eq_map, List.map_cons, List.flatten_cons,
      hg0, List.map_map]
    have hmap : (List.range ps.length).map
        ((fun p => load_unpack_process sizes j (p₀ :: ps) p
          (save_data_fixed cbs (p₀ :: ps).flatten)) ∘ Nat.succ)
        = (List.range ps.length).map
          (fun p => load_unpack_process sizes j ps p (save_data_fixed cbs ps.flatten)) :=
      List.map_congr_left (fun p _ => hgs p)
    rw [hmap]
    rw [show ((List.range ps.length).map
        (fun p => load_unpack_process sizes j ps p
          (save_data_fixed cbs ps.flatten))).flatten
      = load_unpack_all sizes j ps (save_data_fixed cbs ps.flatten) from rfl]
    rw [ih hszr, List.flatten_cons, List.map_append]

/-- Modelled from the spec: `DataTransfer::save` also writes the per-element
variable-size table into the `-variable.data` file alongside the payload, so
that a loading process with a different partition can recover it; over the
global enumeration the table is the variable-size pack table of all elements
with status `CELL_PERSIST`. -/
def save_sizes_variable (cbs : List PackCallback) (cells : List Nat) :
    List (List Nat) :=
  pack_sizes_variable cbs (persist_rels cells)

/-- Modelled from the spec: the `-variable.data` payload contents written by
`DataTransfer::save` over the global enumeration. -/
def save_data_variable (cbs : List PackCallback) (cells : List Nat) : List Nat :=
  pack_data_variable cbs (persist_rels cells)

/-- Modelled from the spec: the variable-size read of one process after
`load`.  The process first recovers its own elements' entries of the
transferred size table (one entry per element, located by element count), then
computes the byte offset of its range in the variable-size file as the
cumulated sizes of all preceding elements' entries, and reads back only its
own assigned byte range; statuses are forced to `CELL_PERSIST`. -/
def load_unpack_process_variable (j : Nat) (parts : List (List Nat)) (p : Nat)
    (file_sizes : List (List Nat)) (file_data : List Nat) : List Invocation :=
  unpack_data_variable j (persist_rels (parts.getD p []))
    ((file_sizes.drop ((parts.take p).flatten.length)).take ((parts.getD p []).length))
    ((file_data.drop
        (((file_sizes.take ((parts.take p).flatten.length)).map List.sum).sum)).take
      ((((file_sizes.drop ((parts.take p).flatten.length)).take
          ((parts.getD p []).length)).map List.sum).sum))

/-- Collects the variable-size unpack invocations of all processes of a
partition, in process order. -/
def load_unpack_all_variable (j : Nat) (parts : List (List Nat))
    (file_sizes : List (List Nat)) (file_data : List Nat) : List Invocation :=
  ((List.range parts.length).map
    (fun p => load_unpack_process_variable j parts p file_sizes file_data)).flatten

theorem save_sizes_variable_append (cbs : List PackCallback) (a b : List Nat) :
    save_sizes_variable cbs (a ++ b)
      = save_sizes_variable cbs a ++ save_sizes_variable cbs b := by
  simp [save_sizes_variable, persist_rels, pack_sizes_variable]

theorem save_data_variable_append (cbs : List PackCallback) (a b : List Nat) :
    save_data_variable cbs (a ++ b)
      = save_data_variable cbs a ++ save_data_variable cbs b := by
  simp [save_data_variable, persist_rels, pack_data_variable]

theorem save_sizes_variable_length (cbs : List PackCallback) (cells : List Nat) :
    (save_sizes_variable cbs cells).length = cells.length := by
  simp [save_sizes_variable, pack_sizes_variable, persist_rels]

theorem save_data_variable_length (cbs : List PackCallback) (cells : List Nat) :
    (save_data_variable cbs cells).length
      = ((save_sizes_variable cbs cells).map List.sum).sum := by
  induction cells with
  | nil => rfl
  | cons c cs ih =>
    have hchunk : (cellChunkVariable cbs
        { quadrant := c, status := CellStatus.CELL_PERSIST, cell := c }).length
        = (cellSizesVariable cbs
          { quadrant := c, status := CellStatus.CELL_PERSIST, cell := c }).sum := by
      rw [show cellChunkVariable cbs
            { quadrant := c, status := CellStatus.CELL_PERSIST, cell := c }
          = (cbs.map (fun cb => cb c CellStatus.CELL_PERSIST)).flatten by
            simp [cellChunkVariable, isInvalid],
        show cellSizesVariable cbs
            { quadrant := c, status := CellStatus.CELL_PERSIST, cell := c }
          = cbs.map (fun cb => (cb c CellStatus.CELL_PERSIST).length) by
            simp [cellSizesVariable, isInvalid],
        List.length_flatten, List.map_map]
      rfl
    rw [show save_data_variable cbs (c :: cs)
        = cellChunkVariable cbs
            { quadrant := c, status := CellStatus.CELL_PERSIST, cell := c }
          ++ save_data_variable cbs cs by
        simp [save_data_variable, persist_rels, pack_data_variable],
      show save_sizes_variable cbs (c :: cs)
        = cellSizesVariable cbs
            { quadrant := c, status := CellStatus.CELL_PERSIST, cell := c }
          :: save_sizes_variable cbs cs by
        simp [save_sizes_variable, persist_rels, pack_sizes_variable],
      List.length_append, hchunk, ih, List.map_cons, List.sum_cons]

/-- Shows that unpacking a whole all-`CELL_PERSIST` range against its own
packed variable-size buffer and size table delivers every element's bytes for
the selected variable-size callback, with no constant-size hypothesis. -/
theorem unpack_persist_exact_variable (cbs : List PackCallback) (j : Nat)
    (hj : j < cbs.length) (cells : List Nat) :
    unpack_data_variable j (persist_rels cells) (save_sizes_variable cbs cells)
        (save_data_variable cbs cells) =
      cells.map (fun c =>
        { cell := c
          status := CellStatus.CELL_PERSIST
          bytes := (cbs.map (fun cb => cb c CellStatus.CELL_PERSIST)).getD j [] }) := by
  rw [save_data_variable, save_sizes_variable,
    show pack_data_variable cbs (persist_rels cells)
      = pack_data_variable cbs (persist_rels cells) ++ [] from (List.append_nil _).symm,
    unpack_data_variable_pack cbs j (persist_rels cells) [] hj]
  rw [List.filter_eq_self.mpr (fun r hr => by
    rcases List.mem_map.mp hr with ⟨c, hc, rfl⟩
    simp [isInvalid])]
  simp [persist_rels, List.map_map]

/-- Shows that after `save`, a variable-size `load` performed under an
arbitrary partition of the global element enumeration recovers, in enumeration
order, every element's saved variable-size bytes for the selected callback,
with status `CELL_PERSIST` — the per-element size table being itself recovered
from the file rather than recomputed. -/
theorem load_recovers_saved_variable (cbs : List PackCallback) (j : Nat)
    (hj : j < cbs.length) :
    ∀ parts : List (List Nat),
      load_unpack_all_variable j parts (save_sizes_variable cbs parts.flatten)
          (save_data_variable cbs parts.flatten) =
        parts.flatten.map (fun c =>
          { cell := c
            status := CellStatus.CELL_PERSIST
            bytes := (cbs.map (fun cb => cb c CellStatus.CELL_PERSIST)).getD j [] }) := by
  intro parts
  induction parts with
  | nil => simp [load_unpack_all_variable]
  | cons p₀ ps ih =>
    have hfs : save_sizes_variable cbs ((p₀ :: ps).flatten)
        = save_sizes_variable cbs p₀ ++ save_sizes_variable cbs ps.flatten := by
      rw [List.flatten_cons, save_sizes_variable_append]
    have hfd : save_data_variable cbs ((p₀ :: ps).flatten)
        = save_data_variable cbs p₀ ++ save_data_variable cbs ps.flatten := by
      rw [List.flatten_cons, save_data_variable_append]
    have hslen : (save_sizes_variable cbs p₀).length = p₀.length :=
      save_sizes_variable_length cbs p₀
    have hdlen : (save_data_variable cbs p₀).length
        = ((save_sizes_variable cbs p₀).map List.sum).sum :=
      save_data_variable_length cbs p₀
    have hg0 : load_unpack_process_variable j (p₀ :: ps) 0
          (save_sizes_variable cbs ((p₀ :: ps).flatten))
          (save_data_variable cbs ((p₀ :: ps).flatten))
        = p₀.map (fun c =>
            { cell := c
              status := CellStatus.CELL_PERSIST
              bytes := (cbs.map (fun cb => cb c CellStatus.CELL_PERSIST)).getD j [] }) := by
      unfold load_unpack_process_variable
      rw [hfs, hfd]
      simp only [List.take_zero, List.flatten_nil, List.length_nil,
        List.drop_zero, List.getD_cons_zero, List.map_nil, List.sum_nil]
      rw [show p₀.length = (save_sizes_variable cbs p₀).length from hslen.symm,
        List.take_left]
      rw [show ((save_sizes_variable cbs p₀).map List.sum).sum
          = (save_data_variable cbs p₀).length from hdlen.symm, List.take_left]
      exact unpack_persist_exact_variable cbs j hj p₀
    have hgs : ∀ p : Nat, load_unpack_process_variable j (p₀ :: ps) (p + 1)
          (save_sizes_variable cbs ((p₀ :: ps).flatten))
          (save_data_variable cbs ((p₀ :: ps).flatten))
        = load_unpack_process_variable j ps p
          (save_sizes_variable cbs ps.flatten) (save_data_variable cbs ps.flatten) := by
      intro p
      unfold load_unpack_process_variable
      rw [hfs, hfd, List.take_succ_cons, List.flatten_cons, List.length_append,
        List.getD_cons_succ]
      have h1 : (save_sizes_variable cbs p₀ ++ save_sizes_variable cbs ps.flatten).drop
          (p₀.length + (ps.take p).flatten.length)
          = (save_sizes_variable cbs ps.flatten).drop ((ps.take p).flatten.length) := by
        rw [show p₀.length = (save_sizes_variable cbs p₀).length from hslen.symm]
        exact List.drop_append _
      have h2 : (save_sizes_variable cbs p₀ ++ save_sizes_variable cbs ps.flatten).take
          (p₀.length + (ps.take p).flatten.length)
          = save_sizes_variable cbs p₀
            ++ (save_sizes_variable cbs ps.flatten).take ((ps.take p).flatten.length) := by
        rw [show p₀.length = (save_sizes_variable cbs p₀).length from hslen.symm]
        exact List.take_append _
      rw [h1, h2, List.map_append, List.sum_append]
      have h3 : (save_data_variable cbs p₀ ++ save_data_variable cbs ps.flatten).drop
          (((save_sizes_variable cbs p₀).map List.sum).sum
            + (((save_sizes_variable cbs ps.flatten).take
                ((ps.take p).flatten.length)).map List.sum).sum)
          = (save_data_variable cbs ps.flatten).drop
            ((((save_sizes_variable cbs ps.flatten).take
                ((ps.take p).flatten.length)).map List.sum).sum) := by
        rw [show ((save_sizes_variable cbs p₀).map List.sum).sum
            = (save_data_variable cbs p₀).length from hdlen.symm]
        exact List.drop_append _
      rw [h3]
    unfold load_unpack_all_variable
    rw [List.length_cons, List.range_succ_eq_map, List.map_cons, List.flatten_cons,
      hg0, List.map_map]
    have hmap : (List.range ps.length).map
        ((fun p => load_unpack_process_variable j (p₀ :: ps) p
          (save_sizes_variable cbs ((p₀ :: ps).flatten))
          (save_data_variable cbs ((p₀ :: ps).flatten))) ∘ Nat.succ)
        = (List.range ps.length).map
          (fun p => load_unpack_process_variable j ps p
            (save_sizes_variable cbs ps.flatten) (save_data_variable cbs ps.flatten)) :=
      List.map_congr_left (fun p _ => hgs p)
    rw [hmap]
    rw [show ((List.range ps.length).map
        (fun p => load_unpack_process_variable j ps p
          (save_sizes_variable cbs ps.flatten)
          (save_data_variable cbs ps.flatten))).flatten
      = load_unpack_all_variable j ps (save_sizes_variable cbs ps.flatten)
          (save_data_variable cbs ps.flatten) from rfl]
    rw [ih, List.flatten_cons, List.map_append]

/-- Lifts the traversal-trace identity to the dispatching full cycle: for any
handle, the delivered cells and statuses are the packed cells and statuses, in
order. -/
theorem full_cycle_unpack_trace (cad : CellAttachedData) (rels : List QuadCellRel)
    (handle : Nat) :
    (full_cycle_unpack cad rels handle).map (fun i => (i.cell, i.status)) =
      pack_invocations rels := by
  unfold full_cycle_unpack
  by_cases h : handle % 2 = 1
  · rw [if_pos h]; exact unpack_data_variable_trace _ _ _ _
  · rw [if_neg h]; exact unpack_data_fixed_trace _ _ _ _

/-- Derives, from a traversal-trace identity, that the number of deliveries
for any given cell equals the number of non-`CELL_INVALID` relations carrying
that cell. -/
theorem filter_count_of_trace {l : List Invocation} {rels : List QuadCellRel}
    (h : l.map (fun i => (i.cell, i.status)) = pack_invocations rels) (c : Nat) :
    (l.filter (fun i => i.cell == c)).length
      = ((rels.filter (fun r => !isInvalid r.status)).filter
          (fun r => r.cell == c)).length := by
  have h1 : (l.filter (fun i => i.cell == c)).length
      = List.countP (fun pr : Nat × CellStatus => pr.1 == c)
          (l.map (fun i => (i.cell, i.status))) := by
    rw [List.countP_map]
    exact (List.countP_eq_length_filter _ l).symm
  rw [h1, h]
  unfold pack_invocations
  rw [List.countP_map, List.countP_eq_length_filter]
  rfl

/-- Unfolds one refinement family into its anchor slot and its placeholder
slots. -/
theorem refine_family_cons (k parent qstart : Nat) :
    refine_family (k + 1) parent qstart
      = { quadrant := qstart, status := CellStatus.CELL_REFINE, cell := parent } ::
        (List.range k).map (fun i =>
          { quadrant := qstart + i + 1, status := CellStatus.CELL_INVALID,
            cell := parent }) := by
  unfold refine_family
  rw [List.range_succ_eq_map, List.map_cons, List.map_map]
  rw [List.cons_eq_cons]
  exact ⟨rfl, List.map_congr_left (fun i _ => rfl)⟩

/-- C1: across one full pack-transfer-unpack cycle (refinement,
repartitioning, or serialization), for every callback registered via
`register_data_attach` (any handle) and every logical unit of cell data — the
single non-`CELL_INVALID` relation that carries it, whether the unit spans one
`CELL_PERSIST` element, k children collapsing into one `CELL_COARSEN` parent,
or one parent expanding into k `CELL_REFINE` children — the unpack callback
passed to `notify_ready_to_unpack` is invoked exactly once for that unit. -/
theorem unpack_invoked_exactly_once_per_unit (cad : CellAttachedData)
    (rels : List QuadCellRel) (handle : Nat) (c : Nat)
    (hunit : ((rels.filter (fun r => !isInvalid r.status)).filter
        (fun r => r.cell == c)).length = 1) :
    ((full_cycle_unpack cad rels handle).filter
        (fun i => i.cell == c)).length = 1 := by
  rw [filter_count_of_trace (full_cycle_unpack_trace cad rels handle) c]
  exact hunit

theorem unpack_invoked_exactly_once_per_unit_witness :
    ((([{ quadrant := 0, status := CellStatus.CELL_COARSEN, cell := 7 },
        { quadrant := 1, status := CellStatus.CELL_REFINE, cell := 4 },
        { quadrant := 2, status := CellStatus.CELL_INVALID, cell := 4 },
        { quadrant := 3, status := CellStatus.CELL_PERSIST, cell := 9 }]
        : List QuadCellRel).filter (fun r => !isInvalid r.status)).filter
        (fun r => r.cell == 7)).length = 1 ∧
    ((full_cycle_unpack emptyAttachedData
        [{ quadrant := 0, status := CellStatus.CELL_COARSEN, cell := 7 },
         { quadrant := 1, status := CellStatus.CELL_REFINE, cell := 4 },
         { quadrant := 2, status := CellStatus.CELL_INVALID, cell := 4 },
         { quadrant := 3, status := CellStatus.CELL_PERSIST, cell := 9 }] 0).filter
        (fun i => i.cell == 7)).length = 1 :=
  ⟨by decide,
   unpack_invoked_exactly_once_per_unit emptyAttachedData
     [{ quadrant := 0, status := CellStatus.CELL_COARSEN, cell := 7 },
      { quadrant := 1, status := CellStatus.CELL_REFINE, cell := 4 },
      { quadrant := 2, status := CellStatus.CELL_INVALID, cell := 4 },
      { quadrant := 3, status := CellStatus.CELL_PERSIST, cell := 9 }] 0 7 (by decide)⟩

/-- C3: on the serialization path — pack callbacks invoked by `save()` and
unpack callbacks invoked after `load()` — every callback on every cell
receives the `CellStatus` argument `CELL_PERSIST`; the refine, coarsen and
invalid statuses never occur there. -/
theorem serialization_callbacks_see_persist (fsave fload : Forest)
    (cell_of_save cell_of_load : Nat → Nat) (cad : CellAttachedData)
    (handle : Nat) :
    (∀ pr ∈ pack_invocations (update_quadrant_cell_relations fsave cell_of_save),
        pr.2 = CellStatus.CELL_PERSIST) ∧
    (∀ inv ∈ full_cycle_unpack cad
        (update_quadrant_cell_relations fload cell_of_load) handle,
        inv.status = CellStatus.CELL_PERSIST) := by
  constructor
  · intro pr hpr
    unfold pack_invocations at hpr
    rcases List.mem_map.mp hpr with ⟨r, hrf, rfl⟩
    have hr := (List.mem_filter.mp hrf).1
    unfold update_quadrant_cell_relations at hr
    rcases List.mem_map.mp hr with ⟨q, _, rfl⟩
    rfl
  · intro inv hinv
    rcases unpack_mem_of_trace (full_cycle_unpack_trace _ _ _) inv hinv with
      ⟨r, hr, _, hst⟩
    unfold update_quadrant_cell_relations at hr
    rcases List.mem_map.mp hr with ⟨q, _, rfl⟩
    rw [hst]

/-- C4: the attachment registry is single-shot: the cycle that consumes the
registered pack callbacks (`notify_ready_to_unpack()`, `save()` or `load()`)
clears the registry; a subsequent cycle started without re-registration issues
no pack requests and behaves exactly like a cycle on a fresh, empty registry —
a normal return, not an error. -/
theorem attach_registry_single_shot (cad : CellAttachedData)
    (rels rels' : List QuadCellRel) :
    (run_cycle cad rels).2.pack_callbacks_fixed = [] ∧
    (run_cycle cad rels).2.pack_callbacks_variable = [] ∧
    (run_cycle cad rels).2.n_attached_data_sets = 0 ∧
    (run_cycle (run_cycle cad rels).2 rels').1 = [] ∧
    run_cycle (run_cycle cad rels).2 rels' = run_cycle emptyAttachedData rels' :=
  ⟨rfl, rfl, rfl, rfl, rfl⟩

/-- C8: the quadrant-cell relation vector has exactly one entry per locally
owned quadrant of the parallel forest, ordered by the occurrence of quadrants
in the forest's local sc_array; and the unpack side traverses elements in
exactly the order of the pack side, so each byte range is attributed to the
element at the same traversal position. -/
theorem quadrant_cell_relations_order (f : Forest) (cell_of : Nat → Nat)
    (cad : CellAttachedData) (handle : Nat) :
    (update_quadrant_cell_relations f cell_of).length
        = f.local_quadrants.length ∧
    (update_quadrant_cell_relations f cell_of).map (fun r => r.quadrant)
        = f.local_quadrants ∧
    (full_cycle_unpack cad (update_quadrant_cell_relations f cell_of) handle).map
        (fun i => (i.cell, i.status))
      = pack_invocations (update_quadrant_cell_relations f cell_of) := by
  refine ⟨List.length_map _ _, ?_, full_cycle_unpack_trace _ _ _⟩
  unfold update_quadrant_cell_relations
  rw [List.map_map]
  have hp : ∀ q ∈ f.local_quadrants,
      (((fun r : QuadCellRel => r.quadrant) ∘ fun q =>
        ({ quadrant := q, status := CellStatus.CELL_PERSIST,
           cell := cell_of q } : QuadCellRel)) q) = id q :=
    fun q _ => rfl
  rw [List.map_congr_left hp, List.map_id]

/-- C9: declaring registration counts at load time
(`n_attached_deserialize_fixed`, `n_attached_deserialize_variable`) that differ
from the counts present at save time is a fatal configuration error reported
immediately by `DataTransfer::load`, before any buffer offset is interpreted;
matching counts load the stored buffers. -/
theorem load_registration_count_mismatch_fatal (store : SerializedStore)
    (nf nv : Nat) (h : nf ≠ store.n_fixed ∨ nv ≠ store.n_variable) :
    dataTransfer_load store nf nv
      = Except.error "number of attached data sets does not match the save" ∧
    dataTransfer_load store store.n_fixed store.n_variable
      = Except.ok (store.data_fixed, store.data_variable, store.sizes_variable) := by
  constructor
  · unfold dataTransfer_load
    have hc : (nf == store.n_fixed && nv == store.n_variable) = false := by
      rcases h with h | h <;> simp [h]
    rw [hc]
    rfl
  · unfold dataTransfer_load
    rw [if_pos (by simp)]

theorem load_registration_count_mismatch_fatal_witness :
    ((2 : Nat) ≠ 1 ∨ (0 : Nat) ≠ 0) ∧
    (dataTransfer_load
        { n_fixed := 1, n_variable := 0, data_fixed := [5],
          data_variable := [], sizes_variable := [] } 2 0
      = Except.error "number of attached data sets does not match the save" ∧
     dataTransfer_load
        { n_fixed := 1, n_variable := 0, data_fixed := [5],
          data_variable := [], sizes_variable := [] } 1 0
      = Except.ok ([5], [], [])) :=
  ⟨by decide,
   load_registration_count_mismatch_fatal
     { n_fixed := 1, n_variable := 0, data_fixed := [5],
       data_variable := [], sizes_variable := [] } 2 0 (by decide)⟩

/-- C10: `register_data_attach` stores pack callbacks in two separate lists
selected by the `returns_variable_size_data` flag (`pack_callbacks_fixed` and
`pack_callbacks_variable`), preserving relative registration order within each
category; and the serialized byte layout is determined by the per-category
callback sequences alone — two globally different interleavings with the same
per-category sequences produce identical fixed and variable buffers. -/
theorem registration_two_lists_by_category
    (regs regs' : List (PackCallback × Bool))
    (hfix : (regs'.filter (fun pr => !pr.2)).map (fun pr => pr.1)
          = (regs.filter (fun pr => !pr.2)).map (fun pr => pr.1))
    (hvar : (regs'.filter (fun pr => pr.2)).map (fun pr => pr.1)
          = (regs.filter (fun pr => pr.2)).map (fun pr => pr.1)) :
    (register_all regs emptyAttachedData).2.pack_callbacks_fixed
        = (regs.filter (fun pr => !pr.2)).map (fun pr => pr.1) ∧
    (register_all regs emptyAttachedData).2.pack_callbacks_variable
        = (regs.filter (fun pr => pr.2)).map (fun pr => pr.1) ∧
    ∀ rels : List QuadCellRel,
      pack_data_fixed (register_all regs' emptyAttachedData).2.pack_callbacks_fixed
          rels
        = pack_data_fixed (register_all regs emptyAttachedData).2.pack_callbacks_fixed
          rels ∧
      pack_data_variable
          (register_all regs' emptyAttachedData).2.pack_callbacks_variable rels
        = pack_data_variable
          (register_all regs emptyAttachedData).2.pack_callbacks_variable rels := by
  have h1 := register_all_fixed regs emptyAttachedData
  have h2 := register_all_variable regs emptyAttachedData
  have h1' := register_all_fixed regs' emptyAttachedData
  have h2' := register_all_variable regs' emptyAttachedData
  rw [show emptyAttachedData.pack_callbacks_fixed = [] from rfl, List.nil_append] at h1
  rw [show emptyAttachedData.pack_callbacks_fixed = [] from rfl, List.nil_append] at h1'
  rw [show emptyAttachedData.pack_callbacks_variable = [] from rfl, List.nil_append] at h2
  rw [show emptyAttachedData.pack_callbacks_variable = [] from rfl, List.nil_append] at h2'
  exact ⟨h1, h2, fun rels =>
    ⟨by rw [h1', h1, hfix], by rw [h2', h2, hvar]⟩⟩

theorem pack_invocations_all_invalid {rels : List QuadCellRel}
    (h : ∀ r ∈ rels, r.status = CellStatus.CELL_INVALID) :
    pack_invocations rels = [] := by
  unfold pack_invocations
  rw [List.filter_eq_nil_iff.mpr (fun r hr => by simp [h r hr, isInvalid])]
  rfl

theorem full_cycle_unpack_all_invalid (cad : CellAttachedData)
    {rels : List QuadCellRel} (handle : Nat)
    (h : ∀ r ∈ rels, r.status = CellStatus.CELL_INVALID) :
    full_cycle_unpack cad rels handle = [] :=
  List.map_eq_nil_iff.mp
    (by rw [full_cycle_unpack_trace, pack_invocations_all_invalid h])

theorem full_cycle_unpack_length (cad : CellAttachedData)
    (rels : List QuadCellRel) (handle : Nat) :
    (full_cycle_unpack cad rels handle).length = (pack_invocations rels).length := by
  rw [← full_cycle_unpack_trace cad rels handle, List.length_map]

/-- C2: for a cell about to be refined into k children, exactly one of the k
pending child slots in the quadrant-cell relations is tagged `CELL_REFINE`
(the very first child) and the remaining k−1 slots are tagged `CELL_INVALID`;
`CELL_INVALID`-tagged slots cause zero pack-callback and zero unpack-callback
invocations, so the family as a whole sees exactly one pack call and exactly
one unpack call per registered callback. -/
theorem refine_family_exactly_one_invocation (k parent qstart : Nat)
    (hk : 1 ≤ k) (cad cad' : CellAttachedData) (handle handle' : Nat) :
    ((refine_family k parent qstart).filter
        (fun r => r.status == CellStatus.CELL_REFINE)).length = 1 ∧
    ((refine_family k parent qstart).filter
        (fun r => r.status == CellStatus.CELL_INVALID)).length = k - 1 ∧
    (pack_invocations (refine_family k parent qstart)).length = 1 ∧
    (full_cycle_unpack cad (refine_family k parent qstart) handle).length = 1 ∧
    pack_invocations ((refine_family k parent qstart).filter
        (fun r => r.status == CellStatus.CELL_INVALID)) = [] ∧
    full_cycle_unpack cad' ((refine_family k parent qstart).filter
        (fun r => r.status == CellStatus.CELL_INVALID)) handle' = [] := by
  obtain ⟨k', rfl⟩ : ∃ k', k = k' + 1 := ⟨k - 1, by omega⟩
  have hfam := refine_family_cons k' parent qstart
  have htail_inv : ∀ r ∈ (List.range k').map (fun i =>
      ({ quadrant := qstart + i + 1, status := CellStatus.CELL_INVALID,
         cell := parent } : QuadCellRel)), r.status = CellStatus.CELL_INVALID := by
    intro r hr
    rcases List.mem_map.mp hr with ⟨i, _, rfl⟩
    rfl
  have ht_ref : ((List.range k').map (fun i =>
      ({ quadrant := qstart + i + 1, status := CellStatus.CELL_INVALID,
         cell := parent } : QuadCellRel))).filter
        (fun r => r.status == CellStatus.CELL_REFINE) = [] :=
    List.filter_eq_nil_iff.mpr (fun r hr => by simp [htail_inv r hr])
  have ht_inv : ((List.range k').map (fun i =>
      ({ quadrant := qstart + i + 1, status := CellStatus.CELL_INVALID,
         cell := parent } : QuadCellRel))).filter
        (fun r => r.status == CellStatus.CELL_INVALID)
      = (List.range k').map (fun i =>
        ({ quadrant := qstart + i + 1, status := CellStatus.CELL_INVALID,
           cell := parent } : QuadCellRel)) :=
    List.filter_eq_self.mpr (fun r hr => by simp [htail_inv r hr])
  have ht_noninv : ((List.range k').map (fun i =>
      ({ quadrant := qstart + i + 1, status := CellStatus.CELL_INVALID,
         cell := parent } : QuadCellRel))).filter
        (fun r => !isInvalid r.status) = [] :=
    List.filter_eq_nil_iff.mpr (fun r hr => by simp [htail_inv r hr, isInvalid])
  have h3 : (pack_invocations (refine_family (k' + 1) parent qstart)).length = 1 := by
    rw [hfam]
    unfold pack_invocations
    rw [List.filter_cons_of_pos rfl, ht_noninv]
    rfl
  have hinv_mem : ∀ r ∈ (refine_family (k' + 1) parent qstart).filter
      (fun r => r.status == CellStatus.CELL_INVALID),
      r.status = CellStatus.CELL_INVALID :=
    fun r hr => by simpa using (List.mem_filter.mp hr).2
  refine ⟨?_, ?_, h3, ?_, pack_invocations_all_invalid hinv_mem,
    full_cycle_unpack_all_invalid cad' handle' hinv_mem⟩
  · rw [hfam, List.filter_cons_of_pos rfl, ht_ref]
    rfl
  · rw [hfam, List.filter_cons_of_neg Bool.false_ne_true, ht_inv,
      List.length_map, List.length_range]
    omega
  · rw [full_cycle_unpack_length, h3]

theorem refine_family_exactly_one_invocation_witness :
    1 ≤ 4 ∧
    (((refine_family 4 5 10).filter
        (fun r => r.status == CellStatus.CELL_REFINE)).length = 1 ∧
     ((refine_family 4 5 10).filter
        (fun r => r.status == CellStatus.CELL_INVALID)).length = 4 - 1 ∧
     (pack_invocations (refine_family 4 5 10)).length = 1 ∧
     (full_cycle_unpack emptyAttachedData (refine_family 4 5 10) 0).length = 1 ∧
     pack_invocations ((refine_family 4 5 10).filter
        (fun r => r.status == CellStatus.CELL_INVALID)) = [] ∧
     full_cycle_unpack emptyAttachedData ((refine_family 4 5 10).filter
        (fun r => r.status == CellStatus.CELL_INVALID)) 0 = []) :=
  ⟨by decide,
   refine_family_exactly_one_invocation 4 5 10 (by decide)
     emptyAttachedData emptyAttachedData 0 0⟩

/-- C5: registering two callbacks A then B (with any mix of fixed-size and
variable-size payloads), packing, and calling `notify_ready_to_unpack` with
A's handle delivers to the unpack callback exactly and only the bytes produced
by A's pack callback on each element — never B's bytes — and symmetrically for
B's handle: the handle returned by `register_data_attach` denotes the
registration's position within the serialized layout of its size category and
is presented unchanged at unpack time. -/
theorem handle_delivers_only_own_bytes (A B : PackCallback) (fA fB : Bool)
    (rels : List QuadCellRel)
    (hsz : FixedSizesOk
      (register_all [(A, fA), (B, fB)] emptyAttachedData).2.pack_callbacks_fixed
      rels) :
    full_cycle_unpack (register_all [(A, fA), (B, fB)] emptyAttachedData).2 rels
        ((register_all [(A, fA), (B, fB)] emptyAttachedData).1.getD 0 0)
      = (rels.filter (fun r => !isInvalid r.status)).map
          (fun r => { cell := r.cell, status := r.status, bytes := A r.cell r.status }) ∧
    full_cycle_unpack (register_all [(A, fA), (B, fB)] emptyAttachedData).2 rels
        ((register_all [(A, fA), (B, fB)] emptyAttachedData).1.getD 1 0)
      = (rels.filter (fun r => !isInvalid r.status)).map
          (fun r => { cell := r.cell, status := r.status, bytes := B r.cell r.status }) := by
  cases fA with
  | false =>
    cases fB with
    | false =>
      exact ⟨full_cycle_unpack_fixed _ rels 0 (by show (0:Nat) < 2; decide) hsz,
             full_cycle_unpack_fixed _ rels 1 (by show (1:Nat) < 2; decide) hsz⟩
    | true =>
      exact ⟨full_cycle_unpack_fixed _ rels 0 (by show (0:Nat) < 1; decide) hsz,
             full_cycle_unpack_variable _ rels 0 (by show (0:Nat) < 1; decide)⟩
  | true =>
    cases fB with
    | false =>
      exact ⟨full_cycle_unpack_variable _ rels 0 (by show (0:Nat) < 1; decide),
             full_cycle_unpack_fixed _ rels 0 (by show (0:Nat) < 1; decide) hsz⟩
    | true =>
      exact ⟨full_cycle_unpack_variable _ rels 0 (by show (0:Nat) < 2; decide),
             full_cycle_unpack_variable _ rels 1 (by show (1:Nat) < 2; decide)⟩

theorem handle_delivers_only_own_bytes_witness :
    FixedSizesOk
      (register_all [((fun c _ => [c, c + 1] : PackCallback), false),
        ((fun c _ => List.replicate c 7 : PackCallback), true)]
        emptyAttachedData).2.pack_callbacks_fixed
      [{ quadrant := 0, status := CellStatus.CELL_PERSIST, cell := 3 },
       { quadrant := 1, status := CellStatus.CELL_COARSEN, cell := 5 },
       { quadrant := 2, status := CellStatus.CELL_INVALID, cell := 5 }] ∧
    (full_cycle_unpack
        (register_all [((fun c _ => [c, c + 1] : PackCallback), false),
          ((fun c _ => List.replicate c 7 : PackCallback), true)]
          emptyAttachedData).2
        [{ quadrant := 0, status := CellStatus.CELL_PERSIST, cell := 3 },
         { quadrant := 1, status := CellStatus.CELL_COARSEN, cell := 5 },
         { quadrant := 2, status := CellStatus.CELL_INVALID, cell := 5 }]
        ((register_all [((fun c _ => [c, c + 1] : PackCallback), false),
          ((fun c _ => List.replicate c 7 : PackCallback), true)]
          emptyAttachedData).1.getD 0 0)
      = (([{ quadrant := 0, status := CellStatus.CELL_PERSIST, cell := 3 },
          { quadrant := 1, status := CellStatus.CELL_COARSEN, cell := 5 },
          { quadrant := 2, status := CellStatus.CELL_INVALID, cell := 5 }]
            : List QuadCellRel).filter
            (fun r => !isInvalid r.status)).map
          (fun r => { cell := r.cell, status := r.status,
                      bytes := (fun c _ => [c, c + 1] : PackCallback) r.cell r.status }) ∧
     full_cycle_unpack
        (register_all [((fun c _ => [c, c + 1] : PackCallback), false),
          ((fun c _ => List.replicate c 7 : PackCallback), true)]
          emptyAttachedData).2
        [{ quadrant := 0, status := CellStatus.CELL_PERSIST, cell := 3 },
         { quadrant := 1, status := CellStatus.CELL_COARSEN, cell := 5 },
         { quadrant := 2, status := CellStatus.CELL_INVALID, cell := 5 }]
        ((register_all [((fun c _ => [c, c + 1] : PackCallback), false),
          ((fun c _ => List.replicate c 7 : PackCallback), true)]
          emptyAttachedData).1.getD 1 0)
      = (([{ quadrant := 0, status := CellStatus.CELL_PERSIST, cell := 3 },
          { quadrant := 1, status := CellStatus.CELL_COARSEN, cell := 5 },
          { quadrant := 2, status := CellStatus.CELL_INVALID, cell := 5 }]
            : List QuadCellRel).filter
            (fun r => !isInvalid r.status)).map
          (fun r => { cell := r.cell, status := r.status,
                      bytes := (fun c _ => List.replicate c 7 : PackCallback)
                        r.cell r.status })) :=
  ⟨by decide,
   handle_delivers_only_own_bytes (fun c _ => [c, c + 1])
     (fun c _ => List.replicate c 7) false true
     [{ quadrant := 0, status := CellStatus.CELL_PERSIST, cell := 3 },
      { quadrant := 1, status := CellStatus.CELL_COARSEN, cell := 5 },
      { quadrant := 2, status := CellStatus.CELL_INVALID, cell := 5 }] (by decide)⟩

/-- C6: the pack/unpack child-visibility asymmetry for refined cells holds on
every cycle: a pack callback invoked with `CELL_REFINE` receives the
not-yet-subdivided parent, whose children do not exist yet; by the time the
unpack callback runs for the same transition — the same parent cell, tagged
`CELL_REFINE` — the newly created children exist and are accessible; while for
`CELL_COARSEN` the children are accessible at pack time but no longer at
unpack time. -/
theorem pack_unpack_child_visibility (k : Nat) (m : Mesh)
    (rels : List QuadCellRel) (hk : 1 ≤ k) (hnd : RelsNodup rels)
    (href : ∀ r ∈ rels, r.status = CellStatus.CELL_REFINE → m.childrenOf r.cell = [])
    (hcoa : ∀ r ∈ rels, r.status = CellStatus.CELL_COARSEN → m.childrenOf r.cell ≠ []) :
    ∀ pr ∈ pack_invocations rels,
      (pr.2 = CellStatus.CELL_REFINE →
        m.childrenOf pr.1 = [] ∧ (adapt_mesh k rels m).childrenOf pr.1 ≠ []) ∧
      (pr.2 = CellStatus.CELL_COARSEN →
        m.childrenOf pr.1 ≠ [] ∧ (adapt_mesh k rels m).childrenOf pr.1 = []) := by
  intro pr hpr
  unfold pack_invocations at hpr
  rcases List.mem_map.mp hpr with ⟨r, hrf, rfl⟩
  have hr : r ∈ rels := (List.mem_filter.mp hrf).1
  constructor
  · intro hst
    have hst' : r.status = CellStatus.CELL_REFINE := hst
    refine ⟨href r hr hst', ?_⟩
    rw [adapt_mesh_refine k r hst' rels hr hnd m]
    exact child_ids_ne_nil k r.cell hk
  · intro hst
    have hst' : r.status = CellStatus.CELL_COARSEN := hst
    exact ⟨hcoa r hr hst', adapt_mesh_coarsen k r hst' rels hr hnd m⟩

theorem pack_unpack_child_visibility_witness :
    1 ≤ 4 ∧
    RelsNodup [{ quadrant := 0, status := CellStatus.CELL_REFINE, cell := 5 },
      { quadrant := 1, status := CellStatus.CELL_INVALID, cell := 5 },
      { quadrant := 2, status := CellStatus.CELL_COARSEN, cell := 9 },
      { quadrant := 3, status := CellStatus.CELL_PERSIST, cell := 6 }] ∧
    (∀ pr ∈ pack_invocations
        [{ quadrant := 0, status := CellStatus.CELL_REFINE, cell := 5 },
         { quadrant := 1, status := CellStatus.CELL_INVALID, cell := 5 },
         { quadrant := 2, status := CellStatus.CELL_COARSEN, cell := 9 },
         { quadrant := 3, status := CellStatus.CELL_PERSIST, cell := 6 }],
      (pr.2 = CellStatus.CELL_REFINE →
        Mesh.childrenOf { children_map := [(9, [1, 2, 3, 4])] } pr.1 = [] ∧
        (adapt_mesh 4
          [{ quadrant := 0, status := CellStatus.CELL_REFINE, cell := 5 },
           { quadrant := 1, status := CellStatus.CELL_INVALID, cell := 5 },
           { quadrant := 2, status := CellStatus.CELL_COARSEN, cell := 9 },
           { quadrant := 3, status := CellStatus.CELL_PERSIST, cell := 6 }]
          { children_map := [(9, [1, 2, 3, 4])] }).childrenOf pr.1 ≠ []) ∧
      (pr.2 = CellStatus.CELL_COARSEN →
        Mesh.childrenOf { children_map := [(9, [1, 2, 3, 4])] } pr.1 ≠ [] ∧
        (adapt_mesh 4
          [{ quadrant := 0, status := CellStatus.CELL_REFINE, cell := 5 },
           { quadrant := 1, status := CellStatus.CELL_INVALID, cell := 5 },
           { quadrant := 2, status := CellStatus.CELL_COARSEN, cell := 9 },
           { quadrant := 3, status := CellStatus.CELL_PERSIST, cell := 6 }]
          { children_map := [(9, [1, 2, 3, 4])] }).childrenOf pr.1 = [])) :=
  ⟨by decide, by decide,
   pack_unpack_child_visibility 4 { children_map := [(9, [1, 2, 3, 4])] }
     [{ quadrant := 0, status := CellStatus.CELL_REFINE, cell := 5 },
      { quadrant := 1, status := CellStatus.CELL_INVALID, cell := 5 },
      { quadrant := 2, status := CellStatus.CELL_COARSEN, cell := 9 },
      { quadrant := 3, status := CellStatus.CELL_PERSIST, cell := 6 }]
     (by decide) (by decide) (by decide) (by decide)⟩

/-- C7: serialization round-trips payload bytes across process-count changes:
after `save`, a `load` under the original partition and a `load` under a
partition into a different number of processes both recover, for every
element in enumeration order, exactly the payload bytes attached at save
time, with `CellStatus` forced to `CELL_PERSIST` in both cases — for every
fixed-size registration (read from the fixed-stride `-fixed.data` contents)
and for every variable-size registration (read from the `-variable.data`
contents, whose per-element size table is itself recovered from the file). -/
theorem serialization_round_trip_any_partition (cbs cbsV : List PackCallback)
    (sizes : List Nat) (j jV : Nat) (cells : List Nat)
    (parts1 parts2 : List (List Nat)) (hj : j < cbs.length)
    (hjV : jV < cbsV.length)
    (h1 : parts1.flatten = cells) (h2 : parts2.flatten = cells)
    (hsz : ∀ c ∈ cells,
      sizes = cbs.map (fun cb => (cb c CellStatus.CELL_PERSIST).length)) :
    load_unpack_all sizes j parts1 (save_data_fixed cbs cells)
        = cells.map (fun c =>
          { cell := c
            status := CellStatus.CELL_PERSIST
            bytes := (cbs.map (fun cb => cb c CellStatus.CELL_PERSIST)).getD j [] }) ∧
    load_unpack_all sizes j parts2 (save_data_fixed cbs cells)
        = cells.map (fun c =>
          { cell := c
            status := CellStatus.CELL_PERSIST
            bytes := (cbs.map (fun cb => cb c CellStatus.CELL_PERSIST)).getD j [] }) ∧
    load_unpack_all_variable jV parts1 (save_sizes_variable cbsV cells)
        (save_data_variable cbsV cells)
        = cells.map (fun c =>
          { cell := c
            status := CellStatus.CELL_PERSIST
            bytes := (cbsV.map (fun cb => cb c CellStatus.CELL_PERSIST)).getD jV [] }) ∧
    load_unpack_all_variable jV parts2 (save_sizes_variable cbsV cells)
        (save_data_variable cbsV cells)
        = cells.map (fun c =>
          { cell := c
            status := CellStatus.CELL_PERSIST
            bytes := (cbsV.map (fun cb => cb c CellStatus.CELL_PERSIST)).getD jV [] }) := by
  subst h1
  refine ⟨load_recovers_saved cbs sizes j hj parts1 hsz, ?_,
    load_recovers_saved_variable cbsV jV hjV parts1, ?_⟩
  · rw [← h2]
    exact load_recovers_saved cbs sizes j hj parts2 (by rw [h2]; exact hsz)
  · rw [← h2]
    exact load_recovers_saved_variable cbsV jV hjV parts2

theorem serialization_round_trip_any_partition_witness :
    (0 : Nat) < 1 ∧
    ([[4, 5], [6]] : List (List Nat)).flatten = [4, 5, 6] ∧
    ([[4], [5], [6]] : List (List Nat)).flatten = [4, 5, 6] ∧
    (load_unpack_all [2] 0 [[4, 5], [6]]
        (save_data_fixed [(fun c _ => [c, c * 2] : PackCallback)] [4, 5, 6])
      = [4, 5, 6].map (fun c =>
          { cell := c
            status := CellStatus.CELL_PERSIST
            bytes := ([(fun c _ => [c, c * 2] : PackCallback)].map
              (fun cb => cb c CellStatus.CELL_PERSIST)).getD 0 [] }) ∧
     load_unpack_all [2] 0 [[4], [5], [6]]
        (save_data_fixed [(fun c _ => [c, c * 2] : PackCallback)] [4, 5, 6])
      = [4, 5, 6].map (fun c =>
          { cell := c
            status := CellStatus.CELL_PERSIST
            bytes := ([(fun c _ => [c, c * 2] : PackCallback)].map
              (fun cb => cb c CellStatus.CELL_PERSIST)).getD 0 [] }) ∧
     load_unpack_all_variable 0 [[4, 5], [6]]
        (save_sizes_variable [(fun c _ => List.replicate c 7 : PackCallback)] [4, 5, 6])
        (save_data_variable [(fun c _ => List.replicate c 7 : PackCallback)] [4, 5, 6])
      = [4, 5, 6].map (fun c =>
          { cell := c
            status := CellStatus.CELL_PERSIST
            bytes := ([(fun c _ => List.replicate c 7 : PackCallback)].map
              (fun cb => cb c CellStatus.CELL_PERSIST)).getD 0 [] }) ∧
     load_unpack_all_variable 0 [[4], [5], [6]]
        (save_sizes_variable [(fun c _ => List.replicate c 7 : PackCallback)] [4, 5, 6])
        (save_data_variable [(fun c _ => List.replicate c 7 : PackCallback)] [4, 5, 6])
      = [4, 5, 6].map (fun c =>
          { cell := c
            status := CellStatus.CELL_PERSIST
            bytes := ([(fun c _ => List.replicate c 7 : PackCallback)].map
              (fun cb => cb c CellStatus.CELL_PERSIST)).getD 0 [] })) :=
  ⟨by decide, by decide, by decide,
   serialization_round_trip_any_partition [(fun c _ => [c, c * 2] : PackCallback)]
     [(fun c _ => List.replicate c 7 : PackCallback)]
     [2] 0 0 [4, 5, 6] [[4, 5], [6]] [[4], [5], [6]]
     (by decide) (by decide) (by decide) (by decide) (by decide)⟩

theorem registration_two_lists_by_category_witness :
    ((([((fun _ _ => [9, 9] : PackCallback), true),
        ((fun c _ => [c] : PackCallback), false),
        ((fun c _ => [c + 2] : PackCallback), false)]
        : List (PackCallback × Bool)).filter (fun pr => !pr.2)).map (fun pr => pr.1)
      = (([((fun c _ => [c] : PackCallback), false),
          ((fun _ _ => [9, 9] : PackCallback), true),
          ((fun c _ => [c + 2] : PackCallback), false)]
          : List (PackCallback × Bool)).filter (fun pr => !pr.2)).map (fun pr => pr.1)) ∧
    ((([((fun _ _ => [9, 9] : PackCallback), true),
        ((fun c _ => [c] : PackCallback), false),
        ((fun c _ => [c + 2] : PackCallback), false)]
        : List (PackCallback × Bool)).filter (fun pr => pr.2)).map (fun pr => pr.1)
      = (([((fun c _ => [c] : PackCallback), false),
          ((fun _ _ => [9, 9] : PackCallback), true),
          ((fun c _ => [c + 2] : PackCallback), false)]
          : List (PackCallback × Bool)).filter (fun pr => pr.2)).map (fun pr => pr.1)) ∧
    ((register_all [((fun c _ => [c] : PackCallback), false),
        ((fun _ _ => [9, 9] : PackCallback), true),
        ((fun c _ => [c + 2] : PackCallback), false)]
        emptyAttachedData).2.pack_callbacks_fixed
      = (([((fun c _ => [c] : PackCallback), false),
          ((fun _ _ => [9, 9] : PackCallback), true),
          ((fun c _ => [c + 2] : PackCallback), false)]
          : List (PackCallback × Bool)).filter (fun pr => !pr.2)).map (fun pr => pr.1) ∧
     (register_all [((fun c _ => [c] : PackCallback), false),
        ((fun _ _ => [9, 9] : PackCallback), true),
        ((fun c _ => [c + 2] : PackCallback), false)]
        emptyAttachedData).2.pack_callbacks_variable
      = (([((fun c _ => [c] : PackCallback), false),
          ((fun _ _ => [9, 9] : PackCallback), true),
          ((fun c _ => [c + 2] : PackCallback), false)]
          : List (PackCallback × Bool)).filter (fun pr => pr.2)).map (fun pr => pr.1) ∧
     ∀ rels : List QuadCellRel,
      pack_data_fixed (register_all [((fun _ _ => [9, 9] : PackCallback), true),
          ((fun c _ => [c] : PackCallback), false),
          ((fun c _ => [c + 2] : PackCallback), false)]
          emptyAttachedData).2.pack_callbacks_fixed rels
        = pack_data_fixed (register_all [((fun c _ => [c] : PackCallback), false),
          ((fun _ _ => [9, 9] : PackCallback), true),
          ((fun c _ => [c + 2] : PackCallback), false)]
          emptyAttachedData).2.pack_callbacks_fixed rels ∧
      pack_data_variable (register_all [((fun _ _ => [9, 9] : PackCallback), true),
          ((fun c _ => [c] : PackCallback), false),
          ((fun c _ => [c + 2] : PackCallback), false)]
          emptyAttachedData).2.pack_callbacks_variable rels
        = pack_data_variable (register_all [((fun c _ => [c] : PackCallback), false),
          ((fun _ _ => [9, 9] : PackCallback), true),
          ((fun c _ => [c + 2] : PackCallback), false)]
          emptyAttachedData).2.pack_callbacks_variable rels) :=
  ⟨rfl, rfl,
   registration_two_lists_by_category
     [((fun c _ => [c] : PackCallback), false),
      ((fun _ _ => [9, 9] : PackCallback), true),
      ((fun c _ => [c + 2] : PackCallback), false)]
     [((fun _ _ => [9, 9] : PackCallback), true),
      ((fun c _ => [c] : PackCallback), false),
      ((fun c _ => [c + 2] : PackCallback), false)] rfl rfl⟩

end DealII
